import Mathlib

/-!
Verification of the lightbox pan/zoom gesture controller of
`src/App.tsx` (drive-claim-gallery).

The relevant program state and event handlers are shallowly embedded
over exact rationals.  JavaScript numbers are modelled as `ℚ`; the
arithmetic the handlers perform is `* / + - Math.min Math.max`, which
is exact on the inputs considered.  `Math.min` and `Math.max` are
modelled by the `if`-based `jsMin`/`jsMax` (proved equal to Mathlib's
`min`/`max` below) so that closed statements evaluate by `decide`.
`Math.hypot` (used only to measure the distance between the two pinch
pointers, line 185 of `App.tsx`) is irrational on rational inputs, so
it is modelled as an arbitrary parameter `hyp : ℚ → ℚ → ℚ`; no theorem
below depends on which norm is used, and concrete witnesses instantiate
it with an explicit function that agrees with the Euclidean norm on the
axis-aligned pointer pairs they use.

React semantics captured by the model:
* `useState` values are read by a handler from the render that produced
  it and all writes take effect after the handler returns; `useRef`
  values (the pointer map, drag flag, pinch snapshot) mutate
  immediately.  No handler in the source reads a state field after
  writing it, so handlers are plain state transformers.
* The `useEffect` with dependency list `[scale]` (lines 159-169) re-runs
  exactly when a commit changes `scale`.  Its body re-clamps `(tx,ty)`
  and re-installs the `resize` listener, whose closure captures the
  `tx`, `ty`, `scale`, `imgW`, `imgH` of the render the effect ran in,
  i.e. the values as of the last scale change (before the effect's own
  re-clamp).  The model keeps that captured tuple in `ResizeSnapshot`.
* `window.innerWidth` / `window.innerHeight` are read live inside
  `clampPan`, so the current viewport `(vw, vh)` is a parameter of each
  event step.
-/

/-- A screen point, as the `{x, y}` objects of the source. -/
structure Pt where
  x : ℚ
  y : ℚ
deriving DecidableEq, Repr

/-- Component state of `App` relevant to the lightbox controller:
`lightboxIndex`, `scale`, `tx`, `ty`, `imgW`, `imgH` (React state,
lines 43-49) and the gesture refs `draggingRef`, `lastPosRef`,
`pointersRef`, `pinchStart*Ref` (lines 52-61).  The pointer `Map` is an
insertion-ordered association list, as a JS `Map` is. -/
structure AppState where
  lightboxIndex : Option Nat
  scale : ℚ
  tx : ℚ
  ty : ℚ
  imgW : ℚ
  imgH : ℚ
  dragging : Bool
  lastPos : Pt
  pointers : List (Nat × Pt)
  pinchStartScale : ℚ
  pinchStartTx : ℚ
  pinchStartTy : ℚ
  pinchStartCenter : Pt
  pinchStartDist : Option ℚ
deriving DecidableEq, Repr

/-- The values captured by the closure of the `resize` listener
installed by the `[scale]` effect (lines 159-169): the `tx`, `ty`,
`scale`, `imgW`, `imgH` of the render in which the effect last ran. -/
structure ResizeSnapshot where
  tx : ℚ
  ty : ℚ
  scale : ℚ
  imgW : ℚ
  imgH : ℚ
deriving DecidableEq, Repr

/-- Full system state: component state plus the installed resize
listener's captured values. -/
structure SysState where
  app : AppState
  snap : ResizeSnapshot
deriving DecidableEq, Repr

/-- `Map.set` of a JS `Map`: update in place if the key is present
(keeping insertion order), else append. -/
def mapSet (m : List (Nat × Pt)) (k : Nat) (v : Pt) : List (Nat × Pt) :=
  if m.any (fun p => p.1 = k) then
    m.map (fun p => if p.1 = k then (k, v) else p)
  else m ++ [(k, v)]

/-- `Map.delete` of a JS `Map`. -/
def mapDelete (m : List (Nat × Pt)) (k : Nat) : List (Nat × Pt) :=
  m.filter (fun p => ¬ p.1 = k)

/-- `Map.has` of a JS `Map`. -/
def mapHas (m : List (Nat × Pt)) (k : Nat) : Bool :=
  m.any (fun p => p.1 = k)

/-- `Math.min` on (non-NaN) numbers. -/
def jsMin (a b : ℚ) : ℚ :=
  if a ≤ b then a else b

/-- `Math.max` on (non-NaN) numbers. -/
def jsMax (a b : ℚ) : ℚ :=
  if a ≤ b then b else a

/-- `Math.abs` on (non-NaN) numbers. -/
def jsAbs (a : ℚ) : ℚ :=
  if a < 0 then -a else a

/-- `clampPan` (lines 145-156).  The source closes over the `imgW`,
`imgH` state and reads `window.innerWidth` / `window.innerHeight`; here
all five environment values are explicit arguments. -/
def clampPan (imgW imgH vw vh : ℚ) (nx ny s : ℚ) : Pt :=
  let w := imgW * s
  let h := imgH * s
  let overX := jsMax 0 ((w - vw) / 2)
  let overY := jsMax 0 ((h - vh) / 2)
  ⟨jsMax (-overX) (jsMin overX nx), jsMax (-overY) (jsMin overY ny)⟩

/-- `getCenterAndDist` (lines 179-186).  `Array.from(map.values())`
lists values in insertion order and `const [a, b] = pts` takes the
first two; with fewer than two pointers it returns a null center and
distance `0`.  `Math.hypot` is the parameter `hyp`. -/
def getCenterAndDist (hyp : ℚ → ℚ → ℚ) (m : List (Nat × Pt)) :
    Option Pt × ℚ :=
  match m.map Prod.snd with
  | a :: b :: _ =>
      (some ⟨(a.x + b.x) / 2, (a.y + b.y) / 2⟩, hyp (a.x - b.x) (a.y - b.y))
  | _ => (none, 0)

/-- JS `a || b` on numbers where `a` is known non-null: yields `b`
exactly when `a` is `0` (line 221, `pinchStartDistRef.current || dist`). -/
def jsOr (a b : ℚ) : ℚ :=
  if a = 0 then b else a

/-- `onPointerDown` (lines 188-203). -/
def onPointerDown (hyp : ℚ → ℚ → ℚ) (pid : Nat) (ex ey : ℚ)
    (s : AppState) : AppState :=
  let ptrs := mapSet s.pointers pid ⟨ex, ey⟩
  if ptrs.length = 2 then
    let cd := getCenterAndDist hyp ptrs
    { s with pointers := ptrs
             pinchStartScale := s.scale
             pinchStartTx := s.tx
             pinchStartTy := s.ty
             pinchStartCenter := cd.1.getD ⟨ex, ey⟩
             pinchStartDist := none }
  else if ptrs.length = 1 then
    { s with pointers := ptrs, lastPos := ⟨ex, ey⟩, dragging := true }
  else
    { s with pointers := ptrs }

/-- `onPointerMove` (lines 205-244). -/
def onPointerMove (hyp : ℚ → ℚ → ℚ) (vw vh : ℚ) (pid : Nat) (ex ey : ℚ)
    (s : AppState) : AppState :=
  if mapHas s.pointers pid then
    let ptrs := mapSet s.pointers pid ⟨ex, ey⟩
    if 2 ≤ ptrs.length then
      match getCenterAndDist hyp ptrs with
      | (none, _) => { s with pointers := ptrs }
      | (some c, dist) =>
        if dist = 0 then { s with pointers := ptrs }
        else
          match s.pinchStartDist with
          | none => { s with pointers := ptrs, pinchStartDist := some dist }
          | some d0 =>
            let nextScale :=
              jsMin 6 (jsMax 1 (s.pinchStartScale * (dist / jsOr d0 dist)))
            let dx := c.x - s.pinchStartCenter.x
            let dy := c.y - s.pinchStartCenter.y
            let k := nextScale / s.pinchStartScale
            let nextTx := s.pinchStartTx * k + dx
            let nextTy := s.pinchStartTy * k + dy
            let cl := clampPan s.imgW s.imgH vw vh nextTx nextTy nextScale
            { s with pointers := ptrs, scale := nextScale,
                     tx := cl.x, ty := cl.y }
    else if s.dragging ∧ 1 < s.scale then
      let dx := ex - s.lastPos.x
      let dy := ey - s.lastPos.y
      let r := clampPan s.imgW s.imgH vw vh (s.tx + dx) (s.ty + dy) s.scale
      { s with pointers := ptrs, lastPos := ⟨ex, ey⟩, tx := r.x, ty := r.y }
    else
      { s with pointers := ptrs }
  else s

/-- `onPointerUp` (lines 246-255). -/
def onPointerUp (pid : Nat) (s : AppState) : AppState :=
  let ptrs := mapDelete s.pointers pid
  let s1 := { s with pointers := ptrs }
  let s2 := if ptrs.length < 2 then { s1 with pinchStartDist := none } else s1
  if ptrs.length = 0 then { s2 with dragging := false } else s2

/-- `onWheel` (lines 172-176): `deltaY < 0` picks factor `1.1`, any
other `deltaY` (including `0`) picks `0.9`. -/
def onWheel (deltaY : ℚ) (s : AppState) : AppState :=
  let factor : ℚ := if deltaY < 0 then 11 / 10 else 9 / 10
  { s with scale := jsMin 6 (jsMax 1 (s.scale * factor)) }

/-- `closeLightbox` (lines 135-141). -/
def closeLightbox (s : AppState) : AppState :=
  { s with lightboxIndex := none, scale := 1, tx := 0, ty := 0,
           dragging := false, pointers := [], pinchStartDist := none }

/-- `openLightbox` (lines 131-134). -/
def openLightbox (idx : Nat) (s : AppState) : AppState :=
  { s with lightboxIndex := some idx, scale := 1, tx := 0, ty := 0 }

/-- `resetView` (line 142). -/
def resetView (s : AppState) : AppState :=
  { s with scale := 1, tx := 0, ty := 0 }

/-- The keys `onKeyDown` (lines 258-265) distinguishes; `other` stands
for every remaining key. -/
inductive Key where
  | escape
  | plus
  | minus
  | zero
  | arrowRight
  | arrowLeft
  | other
deriving DecidableEq, Repr

/-- `onKeyDown` (lines 258-265).  `n` is `filtered.length`.  Note that
`+`/`=` only applies the upper clamp and `-`/`_` only the lower one,
and that the arrow keys merely change `lightboxIndex`. -/
def onKeyDown (n : Nat) (k : Key) (s : AppState) : AppState :=
  match k with
  | .escape => closeLightbox s
  | .plus => { s with scale := jsMin 6 (s.scale * (11 / 10)) }
  | .minus => { s with scale := jsMax 1 (s.scale * (9 / 10)) }
  | .zero => { s with scale := 1, tx := 0, ty := 0 }
  | .arrowRight =>
      match s.lightboxIndex with
      | some i => { s with lightboxIndex := some ((i + 1) % n) }
      | none => s
  | .arrowLeft =>
      match s.lightboxIndex with
      | some i => { s with lightboxIndex := some ((i + n - 1) % n) }
      | none => s
  | .other => s

/-- The image `onLoad` handler (lines 402-408): stores the natural
dimensions and commits `clampPan(0, 0, 1)`.  The `clampPan` call closes
over the `imgW`, `imgH` of the render that fired the event, i.e. the
previous dimensions. -/
def onImageLoad (vw vh : ℚ) (w h : ℚ) (s : AppState) : AppState :=
  let r := clampPan s.imgW s.imgH vw vh 0 0 1
  { s with imgW := w, imgH := h, tx := r.x, ty := r.y }

/-- The next/previous lightbox buttons (lines 428-437):
`setLightboxIndex(i => (i + 1) % filtered.length)` and the analogue for
the previous button; nothing else is touched. -/
def onNavButton (forward : Bool) (n : Nat) (s : AppState) : AppState :=
  match s.lightboxIndex with
  | some i =>
      let j := if forward then (i + 1) % n else (i + n - 1) % n
      { s with lightboxIndex := some j }
  | none => s

/-- Input events of the controller.  `vw`, `vh` and `n` (filtered item
count) are environment values supplied per event by the step function. -/
inductive Event where
  | pointerDown (pid : Nat) (x y : ℚ)
  | pointerMove (pid : Nat) (x y : ℚ)
  | pointerUp (pid : Nat)
  | wheel (deltaY : ℚ)
  | key (k : Key)
  | navNext
  | navPrev
  | doubleClick
  | openEvt (idx : Nat)
  | imageLoad (w h : ℚ)
  | resize
deriving DecidableEq, Repr

/-- Dispatch of a non-resize event to its handler. -/
def handle (hyp : ℚ → ℚ → ℚ) (vw vh : ℚ) (n : Nat) (e : Event)
    (s : AppState) : AppState :=
  match e with
  | .pointerDown pid x y => onPointerDown hyp pid x y s
  | .pointerMove pid x y => onPointerMove hyp vw vh pid x y s
  | .pointerUp pid => onPointerUp pid s
  | .wheel d => onWheel d s
  | .key k => onKeyDown n k s
  | .navNext => onNavButton true n s
  | .navPrev => onNavButton false n s
  | .doubleClick => resetView s
  | .openEvt idx => openLightbox idx s
  | .imageLoad w h => onImageLoad vw vh w h s
  | .resize => s

/-- The body of the `[scale]` effect (lines 159-169), run after a
commit that changed `scale`: re-clamp `(tx, ty)` at the new scale and
re-install the resize listener, capturing the pre-re-clamp render
values. -/
def runScaleEffect (vw vh : ℚ) (a : AppState) : SysState :=
  let r := clampPan a.imgW a.imgH vw vh a.tx a.ty a.scale
  { app := { a with tx := r.x, ty := r.y }
    snap := ⟨a.tx, a.ty, a.scale, a.imgW, a.imgH⟩ }

/-- The installed `onResize` handler (lines 163-166): clamps the
captured `tx`, `ty` at the captured `scale` and image size, reading the
viewport live. -/
def onResize (vw vh : ℚ) (st : SysState) : SysState :=
  let r := clampPan st.snap.imgW st.snap.imgH vw vh
      st.snap.tx st.snap.ty st.snap.scale
  { st with app := { st.app with tx := r.x, ty := r.y } }

/-- One event step of the full system: run the handler, then run the
`[scale]` effect iff the commit changed `scale` (React compares the
dependency with `Object.is`; an unchanged `scale` does not re-run the
effect, so the resize listener keeps its old captured values). -/
def step (hyp : ℚ → ℚ → ℚ) (vw vh : ℚ) (n : Nat) (e : Event)
    (st : SysState) : SysState :=
  match e with
  | .resize => onResize vw vh st
  | _ =>
    let a := handle hyp vw vh n e st.app
    if a.scale = st.app.scale then { st with app := a }
    else runScaleEffect vw vh a

/-- Initial component state (`useState` initializers, lines 43-61). -/
def initApp : AppState :=
  { lightboxIndex := none, scale := 1, tx := 0, ty := 0,
    imgW := 0, imgH := 0, dragging := false, lastPos := ⟨0, 0⟩,
    pointers := [], pinchStartScale := 1, pinchStartTx := 0,
    pinchStartTy := 0, pinchStartCenter := ⟨0, 0⟩, pinchStartDist := none }

/-- Initial system state: the mount run of the `[scale]` effect clamps
`(0,0)` (a no-op) and installs a listener capturing the initial render. -/
def initSys : SysState :=
  { app := initApp, snap := ⟨0, 0, 1, 0, 0⟩ }

/-- States reachable from the initial state by event steps, with an
arbitrary viewport and item count at each step. -/
inductive Reachable (hyp : ℚ → ℚ → ℚ) : SysState → Prop where
  | init : Reachable hyp initSys
  | next (st : SysState) (vw vh : ℚ) (n : Nat) (e : Event) :
      Reachable hyp st → Reachable hyp (step hyp vw vh n e st)

/-- The pan-in-bounds property of the spec, relative to a viewport:
`|tx| ≤ max 0 ((imgW*scale − vw)/2)` and the analogue for `ty`
(stated with the executable `jsAbs`/`jsMax`, proved equal to the
absolute-value form below). -/
def PanInBounds (vw vh : ℚ) (a : AppState) : Prop :=
  jsAbs a.tx ≤ jsMax 0 ((a.imgW * a.scale - vw) / 2) ∧
  jsAbs a.ty ≤ jsMax 0 ((a.imgH * a.scale - vh) / 2)

instance (vw vh : ℚ) (a : AppState) : Decidable (PanInBounds vw vh a) :=
  inferInstanceAs (Decidable (And _ _))

/-- Screen position of the image point `p` (in natural pixels, relative
to the image center) under the render transform of line 399,
`translate(calc(-50% + tx), calc(-50% + ty)) scale(s)` applied to an
image absolutely positioned at `top:50% left:50%` of the viewport: the
point lands at `viewportCenter + (tx, ty) + s · p`. -/
def renderPos (vc : Pt) (tx ty s : ℚ) (p : Pt) : Pt :=
  ⟨vc.x + tx + s * p.x, vc.y + ty + s * p.y⟩

/-- Invariant of the gesture refs: a resolved pinch start distance
requires at least two tracked pointers, a resolved start distance is
never zero (it is only ever set to a distance that passed the
`dist === 0` guard of line 213), and with no tracked pointers the drag
flag is down. -/
structure GoodState (a : AppState) : Prop where
  dist_two : a.pinchStartDist ≠ none → 2 ≤ a.pointers.length
  dist_ne : ∀ d0, a.pinchStartDist = some d0 → d0 ≠ 0
  drag : a.pointers = [] → a.dragging = false

/-- Concrete stand-in for `Math.hypot` used in closed statements: the
taxicab norm.  All concrete pinch configurations below keep the two
pointers on a horizontal line, where `hypTaxi` coincides with the
Euclidean `Math.hypot` (both give the absolute difference of the x
coordinates), so the computed traces are exactly what the program
computes. -/
def hypTaxi : ℚ → ℚ → ℚ := fun a b => jsAbs a + jsAbs b

/-- Run a list of events from the initial state with a fixed 800×600
viewport and five gallery items. -/
def runTrace (es : List Event) : SysState :=
  es.foldl (fun st e => step hypTaxi 800 600 5 e st) initSys

/-- A mid-pinch state used by concrete statements: lightbox open on a
3200×2400 image in an 800×600 viewport at scale 1, two tracked pointers
at (−100,0) and (100,0), pinch snapshot taken at scale 1 with center
(0,0) and a resolved start distance of 100. -/
def pinchDemo : SysState :=
  { app := { lightboxIndex := some 0, scale := 1, tx := 0, ty := 0,
             imgW := 3200, imgH := 2400, dragging := false,
             lastPos := ⟨0, 0⟩,
             pointers := [(0, ⟨-100, 0⟩), (1, ⟨100, 0⟩)],
             pinchStartScale := 1, pinchStartTx := 0, pinchStartTy := 0,
             pinchStartCenter := ⟨0, 0⟩, pinchStartDist := some 100 },
    snap := ⟨0, 0, 1, 3200, 2400⟩ }

/-- A zoomed, panned state on a small image (600×400) that fits the
800×600 viewport at scale 1; used by concrete statements about zooming
back out to scale 1. -/
def zoomOutDemo : SysState :=
  { app := { initApp with
               scale := 11 / 10, tx := 50, ty := 0,
               imgW := 600, imgH := 400 },
    snap := ⟨50, 0, 11 / 10, 600, 400⟩ }

/-! ### Bridges between the executable JS functions and Mathlib -/

theorem jsMin_eq (a b : ℚ) : jsMin a b = min a b :=
  (min_def a b).symm

theorem jsMax_eq (a b : ℚ) : jsMax a b = max a b := by
  rw [max_def, jsMax]

theorem jsAbs_eq (a : ℚ) : jsAbs a = |a| := by
  rw [jsAbs]
  rcases lt_or_le a 0 with h | h
  · rw [if_pos h, abs_of_neg h]
  · rw [if_neg (not_lt.mpr h), abs_of_nonneg h]

/-- `PanInBounds` in the absolute-value form the spec uses. -/
theorem panInBounds_iff (vw vh : ℚ) (a : AppState) :
    PanInBounds vw vh a ↔
      |a.tx| ≤ max 0 ((a.imgW * a.scale - vw) / 2) ∧
      |a.ty| ≤ max 0 ((a.imgH * a.scale - vh) / 2) := by
  rw [PanInBounds, jsAbs_eq, jsAbs_eq, jsMax_eq, jsMax_eq]

/-! ### Basic facts about `clampPan` and the pointer map -/

/-- The x component of `clampPan` lies within the symmetric slack
interval. -/
theorem clampPan_bound_x (W H vw vh nx ny s : ℚ) :
    |(clampPan W H vw vh nx ny s).x| ≤ max 0 ((W * s - vw) / 2) := by
  have h0 : (0 : ℚ) ≤ max 0 ((W * s - vw) / 2) := le_max_left _ _
  simp only [clampPan, jsMax_eq, jsMin_eq]
  rw [abs_le]
  exact ⟨le_max_left _ _, max_le (by linarith) (min_le_left _ _)⟩

/-- The y component of `clampPan` lies within the symmetric slack
interval. -/
theorem clampPan_bound_y (W H vw vh nx ny s : ℚ) :
    |(clampPan W H vw vh nx ny s).y| ≤ max 0 ((H * s - vh) / 2) := by
  have h0 : (0 : ℚ) ≤ max 0 ((H * s - vh) / 2) := le_max_left _ _
  simp only [clampPan, jsMax_eq, jsMin_eq]
  rw [abs_le]
  exact ⟨le_max_left _ _, max_le (by linarith) (min_le_left _ _)⟩

/-- Clamping the origin is a no-op at any scale. -/
theorem clampPan_zero (W H vw vh s : ℚ) :
    clampPan W H vw vh 0 0 s = ⟨0, 0⟩ := by
  have hx : (0 : ℚ) ≤ max 0 ((W * s - vw) / 2) := le_max_left _ _
  have hy : (0 : ℚ) ≤ max 0 ((H * s - vh) / 2) := le_max_left _ _
  simp only [clampPan, jsMax_eq, jsMin_eq, Pt.mk.injEq]
  constructor
  · rw [min_eq_right (by linarith), max_eq_right (by linarith)]
  · rw [min_eq_right (by linarith), max_eq_right (by linarith)]

/-- When the scaled width fits the viewport, the x axis is pinned to 0. -/
theorem clampPan_x_pinned (W H vw vh nx ny s : ℚ) (h : W * s ≤ vw) :
    (clampPan W H vw vh nx ny s).x = 0 := by
  have ho : max 0 ((W * s - vw) / 2) = 0 := max_eq_left (by linarith)
  simp only [clampPan, jsMax_eq, jsMin_eq, ho, neg_zero]
  exact max_eq_left (min_le_left _ _)

/-- When the scaled height fits the viewport, the y axis is pinned to 0. -/
theorem clampPan_y_pinned (W H vw vh nx ny s : ℚ) (h : H * s ≤ vh) :
    (clampPan W H vw vh nx ny s).y = 0 := by
  have ho : max 0 ((H * s - vh) / 2) = 0 := max_eq_left (by linarith)
  simp only [clampPan, jsMax_eq, jsMin_eq, ho, neg_zero]
  exact max_eq_left (min_le_left _ _)

/-- Clamping an already clamped pair is a no-op. -/
theorem clampPan_idem (W H vw vh nx ny s : ℚ) :
    clampPan W H vw vh (clampPan W H vw vh nx ny s).x
      (clampPan W H vw vh nx ny s).y s = clampPan W H vw vh nx ny s := by
  have hx : (0 : ℚ) ≤ max 0 ((W * s - vw) / 2) := le_max_left _ _
  have hy : (0 : ℚ) ≤ max 0 ((H * s - vh) / 2) := le_max_left _ _
  simp only [clampPan, jsMax_eq, jsMin_eq, Pt.mk.injEq]
  constructor
  · rw [min_eq_right (max_le (by linarith) (min_le_left _ _)),
      max_eq_right (le_max_left _ _)]
  · rw [min_eq_right (max_le (by linarith) (min_le_left _ _)),
      max_eq_right (le_max_left _ _)]

/-- The state produced by the `[scale]` effect always satisfies the
pan-in-bounds property for the viewport the effect ran against. -/
theorem runScaleEffect_inBounds (vw vh : ℚ) (a : AppState) :
    PanInBounds vw vh (runScaleEffect vw vh a).app := by
  rw [panInBounds_iff]
  refine ⟨?_, ?_⟩
  · exact clampPan_bound_x a.imgW a.imgH vw vh a.tx a.ty a.scale
  · exact clampPan_bound_y a.imgW a.imgH vw vh a.tx a.ty a.scale

/-- `mapSet` keeps the length when the key is present and appends one
entry otherwise. -/
theorem mapSet_length (m : List (Nat × Pt)) (k : Nat) (v : Pt) :
    (mapSet m k v).length =
      if mapHas m k then m.length else m.length + 1 := by
  simp only [mapSet, mapHas]
  split <;> simp

/-- A present key witnesses a nonempty map. -/
theorem mapHas_length_pos (m : List (Nat × Pt)) (k : Nat)
    (h : mapHas m k = true) : 0 < m.length := by
  cases m with
  | nil => simp [mapHas] at h
  | cons a t => simp

/-- `mapSet` never produces the empty map. -/
theorem mapSet_length_pos (m : List (Nat × Pt)) (k : Nat) (v : Pt) :
    0 < (mapSet m k v).length := by
  rw [mapSet_length]
  split
  · exact mapHas_length_pos m k (by assumption)
  · omega

/-- Deleting an absent key is a no-op, as with a JS `Map`. -/
theorem mapDelete_not_has (m : List (Nat × Pt)) (k : Nat)
    (h : mapHas m k = false) : mapDelete m k = m := by
  simp only [mapHas, List.any_eq_false] at h
  simp only [mapDelete]
  rw [List.filter_eq_self]
  intro a ha
  simpa using h a ha

/-- A non-null center from `getCenterAndDist` forces at least two
tracked pointers. -/
theorem getCenterAndDist_some (hyp : ℚ → ℚ → ℚ) (m : List (Nat × Pt))
    (c : Pt) (d : ℚ) (h : getCenterAndDist hyp m = (some c, d)) :
    2 ≤ m.length := by
  match hm : m with
  | [] => simp [getCenterAndDist] at h
  | [a] => simp [getCenterAndDist] at h
  | a :: b :: t => simp

/-! ### Preservation of the gesture-state invariant -/

theorem good_onPointerDown (hyp : ℚ → ℚ → ℚ) (pid : Nat) (ex ey : ℚ)
    (s : AppState) (g : GoodState s) :
    GoodState (onPointerDown hyp pid ex ey s) := by
  have hpos := mapSet_length_pos s.pointers pid ⟨ex, ey⟩
  have hnil : mapSet s.pointers pid ⟨ex, ey⟩ ≠ [] := List.length_pos.mp hpos
  have hlen := mapSet_length s.pointers pid ⟨ex, ey⟩
  have hge : s.pointers.length ≤ (mapSet s.pointers pid ⟨ex, ey⟩).length := by
    rw [hlen]; split <;> omega
  simp only [onPointerDown]
  split
  · exact ⟨fun h => (h rfl).elim, fun d0 hd0 => Option.noConfusion hd0,
      fun h => absurd h hnil⟩
  · split
    · refine ⟨fun h => ?_, g.dist_ne, fun h => absurd h hnil⟩
      have h2 := g.dist_two h
      show 2 ≤ (mapSet s.pointers pid ⟨ex, ey⟩).length
      omega
    · refine ⟨fun h => ?_, g.dist_ne, fun h => absurd h hnil⟩
      have h2 := g.dist_two h
      show 2 ≤ (mapSet s.pointers pid ⟨ex, ey⟩).length
      omega

theorem good_onPointerMove (hyp : ℚ → ℚ → ℚ) (vw vh : ℚ) (pid : Nat)
    (ex ey : ℚ) (s : AppState) (g : GoodState s) :
    GoodState (onPointerMove hyp vw vh pid ex ey s) := by
  have hpos := mapSet_length_pos s.pointers pid ⟨ex, ey⟩
  have hnil : mapSet s.pointers pid ⟨ex, ey⟩ ≠ [] := List.length_pos.mp hpos
  simp only [onPointerMove]
  split
  case isFalse => exact g
  case isTrue hhas =>
    split
    case isTrue h2 =>
      split
      · exact ⟨fun _ => h2, g.dist_ne, fun h => absurd h hnil⟩
      · split
        case isTrue hd => exact ⟨fun _ => h2, g.dist_ne, fun h => absurd h hnil⟩
        case isFalse hd =>
          split
          · refine ⟨fun _ => h2, fun e he => ?_, fun h => absurd h hnil⟩
            have : _ = e := Option.some.inj he
            exact this ▸ hd
          · exact ⟨fun _ => h2, g.dist_ne, fun h => absurd h hnil⟩
    case isFalse h2 =>
      have hlen : (mapSet s.pointers pid ⟨ex, ey⟩).length = s.pointers.length := by
        rw [mapSet_length]
        simp [hhas]
      split
      · refine ⟨fun h => ?_, g.dist_ne, fun h => absurd h hnil⟩
        have := g.dist_two h
        show 2 ≤ (mapSet s.pointers pid ⟨ex, ey⟩).length
        omega
      · refine ⟨fun h => ?_, g.dist_ne, fun h => absurd h hnil⟩
        have := g.dist_two h
        show 2 ≤ (mapSet s.pointers pid ⟨ex, ey⟩).length
        omega

theorem good_onPointerUp (pid : Nat) (s : AppState) (g : GoodState s) :
    GoodState (onPointerUp pid s) := by
  by_cases h2 : (mapDelete s.pointers pid).length < 2
  · by_cases h0 : (mapDelete s.pointers pid).length = 0
    · simp only [onPointerUp, if_pos h2, if_pos h0]
      exact ⟨fun h => (h rfl).elim, fun d0 hd0 => Option.noConfusion hd0,
        fun _ => rfl⟩
    · simp only [onPointerUp, if_pos h2, if_neg h0]
      exact ⟨fun h => (h rfl).elim, fun d0 hd0 => Option.noConfusion hd0,
        fun hn => absurd (List.length_eq_zero.mpr hn) h0⟩
  · have h0 : ¬ (mapDelete s.pointers pid).length = 0 := by omega
    simp only [onPointerUp, if_neg h2, if_neg h0]
    exact ⟨fun _ => by show 2 ≤ (mapDelete s.pointers pid).length; omega,
      g.dist_ne, fun hn => absurd (List.length_eq_zero.mpr hn) h0⟩

theorem good_handle (hyp : ℚ → ℚ → ℚ) (vw vh : ℚ) (n : Nat) (e : Event)
    (s : AppState) (g : GoodState s) :
    GoodState (handle hyp vw vh n e s) := by
  cases e with
  | pointerDown pid x y => exact good_onPointerDown hyp pid x y s g
  | pointerMove pid x y => exact good_onPointerMove hyp vw vh pid x y s g
  | pointerUp pid => exact good_onPointerUp pid s g
  | wheel d => exact ⟨g.dist_two, g.dist_ne, g.drag⟩
  | key k =>
    cases k with
    | escape => exact ⟨fun h => (h rfl).elim,
        fun d0 hd0 => Option.noConfusion hd0, fun _ => rfl⟩
    | plus => exact ⟨g.dist_two, g.dist_ne, g.drag⟩
    | minus => exact ⟨g.dist_two, g.dist_ne, g.drag⟩
    | zero => exact ⟨g.dist_two, g.dist_ne, g.drag⟩
    | arrowRight =>
      simp only [handle, onKeyDown]
      cases s.lightboxIndex with
      | none => exact g
      | some i => exact ⟨g.dist_two, g.dist_ne, g.drag⟩
    | arrowLeft =>
      simp only [handle, onKeyDown]
      cases s.lightboxIndex with
      | none => exact g
      | some i => exact ⟨g.dist_two, g.dist_ne, g.drag⟩
    | other => exact g
  | navNext =>
    simp only [handle, onNavButton]
    cases s.lightboxIndex with
    | none => exact g
    | some i => exact ⟨g.dist_two, g.dist_ne, g.drag⟩
  | navPrev =>
    simp only [handle, onNavButton]
    cases s.lightboxIndex with
    | none => exact g
    | some i => exact ⟨g.dist_two, g.dist_ne, g.drag⟩
  | doubleClick => exact ⟨g.dist_two, g.dist_ne, g.drag⟩
  | openEvt idx => exact ⟨g.dist_two, g.dist_ne, g.drag⟩
  | imageLoad w h => exact ⟨g.dist_two, g.dist_ne, g.drag⟩
  | resize => exact g

theorem good_step (hyp : ℚ → ℚ → ℚ) (vw vh : ℚ) (n : Nat) (e : Event)
    (st : SysState) (g : GoodState st.app) :
    GoodState (step hyp vw vh n e st).app := by
  have gh := good_handle hyp vw vh n e st.app g
  cases e <;> simp only [step] <;>
    first
      | exact ⟨g.dist_two, g.dist_ne, g.drag⟩
      | (split
         · exact gh
         · exact ⟨gh.dist_two, gh.dist_ne, gh.drag⟩)

/-- Every reachable state satisfies the gesture invariant. -/
theorem reachable_good (hyp : ℚ → ℚ → ℚ) (st : SysState)
    (h : Reachable hyp st) : GoodState st.app := by
  induction h with
  | init => exact ⟨fun h => (h rfl).elim,
      fun d0 hd0 => Option.noConfusion hd0, fun _ => rfl⟩
  | next st vw vh n e _ ih => exact good_step hyp vw vh n e st ih

/-! ### C4: clampPan functional correctness -/

/-- C4.  `clampPan` clamps each axis into the symmetric interval
`[-over, over]` with `over = max 0 ((img*scale − viewport)/2)`: the
returned pair is literally `(clamp nx, clamp ny)`; on the concrete
scenario of the spec (viewport 800×600, image 1600×1200, scale 2) the
request (5000, 5000) clamps to (1200, 900); and an axis whose scaled
image size fits inside the viewport is pinned to 0. -/
theorem clampPan_spec :
    (∀ imgW imgH vw vh nx ny s : ℚ,
        clampPan imgW imgH vw vh nx ny s =
          ⟨max (-(max 0 ((imgW * s - vw) / 2)))
              (min (max 0 ((imgW * s - vw) / 2)) nx),
            max (-(max 0 ((imgH * s - vh) / 2)))
              (min (max 0 ((imgH * s - vh) / 2)) ny)⟩) ∧
    clampPan 1600 1200 800 600 5000 5000 2 = ⟨1200, 900⟩ ∧
    (∀ imgW imgH vw vh nx ny s : ℚ, imgW * s ≤ vw →
        (clampPan imgW imgH vw vh nx ny s).x = 0) ∧
    (∀ imgW imgH vw vh nx ny s : ℚ, imgH * s ≤ vh →
        (clampPan imgW imgH vw vh nx ny s).y = 0) := by
  refine ⟨fun imgW imgH vw vh nx ny s => ?_,
    by norm_num [clampPan, jsMax, jsMin], ?_, ?_⟩
  · simp only [clampPan, jsMax_eq, jsMin_eq]
  · exact fun imgW imgH vw vh nx ny s h => clampPan_x_pinned _ _ _ _ _ _ _ h
  · exact fun imgW imgH vw vh nx ny s h => clampPan_y_pinned _ _ _ _ _ _ _ h

/-- Witness for C4: a 300-wide image at scale 2 fits an 800-wide
viewport, so the x axis of the clamp is pinned to 0. -/
theorem clampPan_spec_witness :
    (clampPan 300 1200 800 600 1000 1000 2).x = 0 :=
  clampPan_spec.2.2.1 300 1200 800 600 1000 1000 2 (by norm_num)

/-! ### Field-preservation and range helper lemmas -/

theorem onPointerDown_scale (hyp : ℚ → ℚ → ℚ) (pid : Nat) (ex ey : ℚ)
    (s : AppState) : (onPointerDown hyp pid ex ey s).scale = s.scale := by
  simp only [onPointerDown]
  split
  · rfl
  · split <;> rfl

theorem onPointerDown_tx (hyp : ℚ → ℚ → ℚ) (pid : Nat) (ex ey : ℚ)
    (s : AppState) : (onPointerDown hyp pid ex ey s).tx = s.tx := by
  simp only [onPointerDown]
  split
  · rfl
  · split <;> rfl

theorem onPointerDown_ty (hyp : ℚ → ℚ → ℚ) (pid : Nat) (ex ey : ℚ)
    (s : AppState) : (onPointerDown hyp pid ex ey s).ty = s.ty := by
  simp only [onPointerDown]
  split
  · rfl
  · split <;> rfl

theorem onPointerUp_scale (pid : Nat) (s : AppState) :
    (onPointerUp pid s).scale = s.scale := by
  simp only [onPointerUp]
  split <;> split <;> rfl

theorem onPointerUp_tx (pid : Nat) (s : AppState) :
    (onPointerUp pid s).tx = s.tx := by
  simp only [onPointerUp]
  split <;> split <;> rfl

theorem onPointerUp_ty (pid : Nat) (s : AppState) :
    (onPointerUp pid s).ty = s.ty := by
  simp only [onPointerUp]
  split <;> split <;> rfl

/-- The double clamp of lines 175 and 221/222 keeps any input inside
`[1, 6]`. -/
theorem jsClamp_mem (x : ℚ) :
    1 ≤ jsMin 6 (jsMax 1 x) ∧ jsMin 6 (jsMax 1 x) ≤ 6 := by
  rw [jsMin_eq, jsMax_eq]
  exact ⟨le_min (by norm_num) (le_max_left 1 x), min_le_left 6 _⟩

/-- A state with zero translation is pan-in-bounds for any viewport. -/
theorem panInBounds_of_zero (vw vh : ℚ) (a : AppState)
    (hx : a.tx = 0) (hy : a.ty = 0) : PanInBounds vw vh a := by
  rw [panInBounds_iff, hx, hy, abs_zero]
  exact ⟨le_max_left _ _, le_max_left _ _⟩

/-- A state whose translation is a `clampPan` output at its own scale
and image size is pan-in-bounds for the viewport the clamp used. -/
theorem panInBounds_of_clamp (vw vh : ℚ) (a : AppState) (nx ny : ℚ)
    (hx : a.tx = (clampPan a.imgW a.imgH vw vh nx ny a.scale).x)
    (hy : a.ty = (clampPan a.imgW a.imgH vw vh nx ny a.scale).y) :
    PanInBounds vw vh a := by
  rw [panInBounds_iff, hx, hy]
  exact ⟨clampPan_bound_x _ _ _ _ _ _ _, clampPan_bound_y _ _ _ _ _ _ _⟩

/-- For every non-resize event, the committed scale is the handler's
scale (the effect's re-clamp never touches `scale`). -/
theorem step_scale_handle (hyp : ℚ → ℚ → ℚ) (vw vh : ℚ) (n : Nat)
    (e : Event) (st : SysState) (hne : e ≠ Event.resize) :
    (step hyp vw vh n e st).app.scale =
      (handle hyp vw vh n e st.app).scale := by
  cases e <;> first
    | exact absurd rfl hne
    | (simp only [step]; split <;> rfl)

/-- For every non-resize event whose handler changes the scale, the
step is the handler followed by the `[scale]` effect. -/
theorem step_effect_of_ne (hyp : ℚ → ℚ → ℚ) (vw vh : ℚ) (n : Nat)
    (e : Event) (st : SysState) (hne : e ≠ Event.resize)
    (hdiff : ¬ (handle hyp vw vh n e st.app).scale = st.app.scale) :
    step hyp vw vh n e st =
      runScaleEffect vw vh (handle hyp vw vh n e st.app) := by
  cases e <;> first
    | exact absurd rfl hne
    | (simp only [step]; rw [if_neg hdiff])

/-- For every non-resize event whose handler keeps the scale, the step
is just the handler. -/
theorem step_handle_of_eq (hyp : ℚ → ℚ → ℚ) (vw vh : ℚ) (n : Nat)
    (e : Event) (st : SysState) (hne : e ≠ Event.resize)
    (heq : (handle hyp vw vh n e st.app).scale = st.app.scale) :
    step hyp vw vh n e st = { st with app := handle hyp vw vh n e st.app } := by
  cases e <;> first
    | exact absurd rfl hne
    | (simp only [step]; rw [if_pos heq])

/-! ### C3: the scale-range invariant -/

theorem handle_scale_range (hyp : ℚ → ℚ → ℚ) (vw vh : ℚ) (n : Nat)
    (e : Event) (s : AppState) (h1 : 1 ≤ s.scale) (h6 : s.scale ≤ 6) :
    1 ≤ (handle hyp vw vh n e s).scale ∧
      (handle hyp vw vh n e s).scale ≤ 6 := by
  cases e with
  | pointerDown pid x y =>
    rw [show (handle hyp vw vh n (.pointerDown pid x y) s) =
      onPointerDown hyp pid x y s from rfl, onPointerDown_scale]
    exact ⟨h1, h6⟩
  | pointerMove pid x y =>
    simp only [handle, onPointerMove]
    split
    case isFalse => exact ⟨h1, h6⟩
    case isTrue =>
      split
      case isFalse => split <;> exact ⟨h1, h6⟩
      case isTrue =>
        split
        · exact ⟨h1, h6⟩
        · split
          · exact ⟨h1, h6⟩
          · split
            · exact ⟨h1, h6⟩
            · exact jsClamp_mem _
  | pointerUp pid =>
    rw [show (handle hyp vw vh n (.pointerUp pid) s) =
      onPointerUp pid s from rfl, onPointerUp_scale]
    exact ⟨h1, h6⟩
  | wheel d => exact jsClamp_mem _
  | key k =>
    cases k with
    | escape => exact ⟨le_refl 1, by show (1:ℚ) ≤ 6; norm_num⟩
    | plus =>
      refine ⟨?_, ?_⟩
      · show 1 ≤ jsMin 6 (s.scale * (11 / 10))
        rw [jsMin_eq]
        exact le_min (by norm_num) (by linarith)
      · show jsMin 6 (s.scale * (11 / 10)) ≤ 6
        rw [jsMin_eq]
        exact min_le_left _ _
    | minus =>
      refine ⟨?_, ?_⟩
      · show 1 ≤ jsMax 1 (s.scale * (9 / 10))
        rw [jsMax_eq]
        exact le_max_left _ _
      · show jsMax 1 (s.scale * (9 / 10)) ≤ 6
        rw [jsMax_eq]
        exact max_le (by norm_num) (by linarith)
    | zero => exact ⟨le_refl 1, by show (1:ℚ) ≤ 6; norm_num⟩
    | arrowRight =>
      simp only [handle, onKeyDown]
      cases s.lightboxIndex <;> exact ⟨h1, h6⟩
    | arrowLeft =>
      simp only [handle, onKeyDown]
      cases s.lightboxIndex <;> exact ⟨h1, h6⟩
    | other => exact ⟨h1, h6⟩
  | navNext =>
    simp only [handle, onNavButton]
    cases s.lightboxIndex <;> exact ⟨h1, h6⟩
  | navPrev =>
    simp only [handle, onNavButton]
    cases s.lightboxIndex <;> exact ⟨h1, h6⟩
  | doubleClick => exact ⟨le_refl 1, by show (1:ℚ) ≤ 6; norm_num⟩
  | openEvt idx => exact ⟨le_refl 1, by show (1:ℚ) ≤ 6; norm_num⟩
  | imageLoad w h => exact ⟨h1, h6⟩
  | resize => exact ⟨h1, h6⟩

/-- C3.  Every event handler leaves `scale` inside `[1, 6]`: wheel
(factor 1.1 or 0.9 then the double clamp of line 175), keyboard `+`/`-`
(lines 260-261), pinch (line 222), and all remaining events, starting
from any state whose scale is in `[1, 6]`. -/
theorem scale_range_invariant (hyp : ℚ → ℚ → ℚ) (vw vh : ℚ) (n : Nat)
    (e : Event) (st : SysState)
    (h1 : 1 ≤ st.app.scale) (h6 : st.app.scale ≤ 6) :
    1 ≤ (step hyp vw vh n e st).app.scale ∧
      (step hyp vw vh n e st).app.scale ≤ 6 := by
  by_cases hre : e = Event.resize
  · subst hre
    exact ⟨h1, h6⟩
  · rw [step_scale_handle hyp vw vh n e st hre]
    exact handle_scale_range hyp vw vh n e st.app h1 h6

/-- Witness for C3: one zoom-in wheel tick from the initial state keeps
the scale inside `[1, 6]`. -/
theorem scale_range_invariant_witness :
    1 ≤ (step hypTaxi 800 600 5 (Event.wheel (-1)) initSys).app.scale ∧
      (step hypTaxi 800 600 5 (Event.wheel (-1)) initSys).app.scale ≤ 6 :=
  scale_range_invariant hypTaxi 800 600 5 (Event.wheel (-1)) initSys
    (le_refl 1) (by norm_num [initSys, initApp])

/-! ### C8: what the resize handler actually re-clamps -/

/-- C8 (amended).  The resize listener clamps the `(tx, ty)` captured
by the `[scale]` effect at the last scale change — not the currently
committed values — at the captured scale and captured image dimensions,
against viewport dimensions read live at call time; `scale` and the
captured snapshot are unchanged. -/
theorem resize_uses_snapshot (hyp : ℚ → ℚ → ℚ) (vw vh : ℚ) (n : Nat)
    (st : SysState) :
    step hyp vw vh n Event.resize st =
      { st with app := { st.app with
          tx := (clampPan st.snap.imgW st.snap.imgH vw vh
            st.snap.tx st.snap.ty st.snap.scale).x,
          ty := (clampPan st.snap.imgW st.snap.imgH vw vh
            st.snap.tx st.snap.ty st.snap.scale).y } } ∧
    (step hyp vw vh n Event.resize st).app.scale = st.app.scale ∧
    (step hyp vw vh n Event.resize st).snap = st.snap :=
  ⟨rfl, rfl, rfl⟩

/-- Counterexample to C8 as stated: load a 1600×1200 image, zoom to
1.1 (the effect captures tx = 0), drag to tx = 100, release; the
committed translation is (100, 0) and re-clamping it at the current
scale and viewport would keep 100, but the resize handler commits 0,
the re-clamp of the stale captured value. -/
theorem resize_stale_counterexample :
    (runTrace [.imageLoad 1600 1200, .wheel (-1), .pointerDown 0 0 0,
      .pointerMove 0 100 0, .pointerUp 0]).app.tx = 100 ∧
    (clampPan 1600 1200 800 600 100 0 (11 / 10)).x = 100 ∧
    (step hypTaxi 800 600 5 Event.resize
      (runTrace [.imageLoad 1600 1200, .wheel (-1), .pointerDown 0 0 0,
        .pointerMove 0 100 0, .pointerUp 0])).app.tx = 0 := by
  norm_num [runTrace, step, handle, onImageLoad, onWheel, onPointerDown,
    onPointerMove, onPointerUp, clampPan, jsMax, jsMin, jsAbs, jsOr,
    mapSet, mapDelete, mapHas, getCenterAndDist, initSys, initApp,
    runScaleEffect, onResize]

/-! ### C6: what navigation actually does -/

/-- C6 (amended).  Navigating the lightbox — arrow keys or the
next/previous buttons — only updates `lightboxIndex`; it does not reset
the ViewTransform and does not clear the tracked pointers, the pinch
anchor data or the drag flag. -/
theorem nav_preserves_transform (hyp : ℚ → ℚ → ℚ) (vw vh : ℚ) (n : Nat)
    (st : SysState) :
    ((step hyp vw vh n .navNext st).app.scale = st.app.scale ∧
     (step hyp vw vh n .navNext st).app.tx = st.app.tx ∧
     (step hyp vw vh n .navNext st).app.ty = st.app.ty ∧
     (step hyp vw vh n .navNext st).app.pointers = st.app.pointers ∧
     (step hyp vw vh n .navNext st).app.pinchStartDist =
       st.app.pinchStartDist ∧
     (step hyp vw vh n .navNext st).app.dragging = st.app.dragging) ∧
    ((step hyp vw vh n .navPrev st).app.scale = st.app.scale ∧
     (step hyp vw vh n .navPrev st).app.tx = st.app.tx ∧
     (step hyp vw vh n .navPrev st).app.ty = st.app.ty ∧
     (step hyp vw vh n .navPrev st).app.pointers = st.app.pointers ∧
     (step hyp vw vh n .navPrev st).app.pinchStartDist =
       st.app.pinchStartDist ∧
     (step hyp vw vh n .navPrev st).app.dragging = st.app.dragging) ∧
    ((step hyp vw vh n (.key .arrowRight) st).app.scale = st.app.scale ∧
     (step hyp vw vh n (.key .arrowRight) st).app.tx = st.app.tx ∧
     (step hyp vw vh n (.key .arrowRight) st).app.ty = st.app.ty ∧
     (step hyp vw vh n (.key .arrowRight) st).app.pointers =
       st.app.pointers ∧
     (step hyp vw vh n (.key .arrowRight) st).app.pinchStartDist =
       st.app.pinchStartDist ∧
     (step hyp vw vh n (.key .arrowRight) st).app.dragging =
       st.app.dragging) ∧
    ((step hyp vw vh n (.key .arrowLeft) st).app.scale = st.app.scale ∧
     (step hyp vw vh n (.key .arrowLeft) st).app.tx = st.app.tx ∧
     (step hyp vw vh n (.key .arrowLeft) st).app.ty = st.app.ty ∧
     (step hyp vw vh n (.key .arrowLeft) st).app.pointers =
       st.app.pointers ∧
     (step hyp vw vh n (.key .arrowLeft) st).app.pinchStartDist =
       st.app.pinchStartDist ∧
     (step hyp vw vh n (.key .arrowLeft) st).app.dragging =
       st.app.dragging) := by
  cases hli : st.app.lightboxIndex <;>
    simp [step, handle, onNavButton, onKeyDown, hli]

/-- Counterexample to C6 as stated: open the lightbox, load an image,
zoom to 1.1, put one finger down, then press the next button: the
scale is still 1.1 (not reset to 1) and the pointer is still tracked
(not cleared). -/
theorem nav_reset_counterexample :
    (runTrace [.openEvt 0, .imageLoad 1600 1200, .wheel (-1),
      .pointerDown 0 0 0, .navNext]).app.scale = 11 / 10 ∧
    (runTrace [.openEvt 0, .imageLoad 1600 1200, .wheel (-1),
      .pointerDown 0 0 0, .navNext]).app.pointers = [(0, ⟨0, 0⟩)] := by
  norm_num [runTrace, step, handle, onImageLoad, onWheel, onPointerDown,
    onNavButton, openLightbox, clampPan, jsMax, jsMin, jsAbs, jsOr,
    mapSet, mapHas, getCenterAndDist, initSys, initApp, runScaleEffect]

/-! ### C10: the pinch-anchor invariant -/

/-- C10.  In every reachable state a non-null pinch start distance
implies at least two tracked pointers (equivalently: with fewer than
two tracked pointers the pinch start distance is null); the property is
preserved by pointer-down, pointer-move, pointer-up and close. -/
theorem pinch_requires_two_pointers (hyp : ℚ → ℚ → ℚ) (st : SysState)
    (hr : Reachable hyp st) :
    st.app.pinchStartDist ≠ none → 2 ≤ st.app.pointers.length :=
  (reachable_good hyp st hr).dist_two

/-- Witness for C10: after two pointer-downs and the baseline move, the
start distance is resolved and indeed two pointers are tracked. -/
theorem pinch_requires_two_pointers_witness :
    2 ≤ (runTrace [.pointerDown 0 0 0, .pointerDown 1 100 0,
      .pointerMove 0 0 0]).app.pointers.length :=
  pinch_requires_two_pointers hypTaxi _
    (Reachable.next _ 800 600 5 (.pointerMove 0 0 0)
      (Reachable.next _ 800 600 5 (.pointerDown 1 100 0)
        (Reachable.next _ 800 600 5 (.pointerDown 0 0 0) Reachable.init)))
    (by
      norm_num [runTrace, step, handle, onPointerDown, onPointerMove,
        mapSet, mapHas, getCenterAndDist, initSys, initApp, jsAbs, hypTaxi,
        runScaleEffect]
      exact fun h => Option.noConfusion h)

/-! ### C5: what holds at scale 1 -/

/-- C5 (amended).  When a wheel or keyboard zoom event brings the scale
to 1 from a different scale, the committed translation is the re-clamp
of the previous translation at scale 1 — it becomes (0, 0) exactly on
the axes where the natural image fits the viewport, and a nonzero pan
survives on an axis where the natural image overflows the viewport.
The invariant "scale = 1 implies tx = ty = 0" therefore holds only for
images no larger than the viewport. -/
theorem zoom_to_one_reclamp (hyp : ℚ → ℚ → ℚ) (vw vh : ℚ) (n : Nat)
    (e : Event) (st : SysState)
    (hz : (∃ d, e = Event.wheel d) ∨ e = Event.key Key.plus ∨
      e = Event.key Key.minus)
    (hs1 : (step hyp vw vh n e st).app.scale = 1)
    (hne : st.app.scale ≠ 1) :
    (step hyp vw vh n e st).app.tx =
      (clampPan st.app.imgW st.app.imgH vw vh st.app.tx st.app.ty 1).x ∧
    (step hyp vw vh n e st).app.ty =
      (clampPan st.app.imgW st.app.imgH vw vh st.app.tx st.app.ty 1).y ∧
    (st.app.imgW ≤ vw → (step hyp vw vh n e st).app.tx = 0) ∧
    (st.app.imgH ≤ vh → (step hyp vw vh n e st).app.ty = 0) := by
  have hre : e ≠ Event.resize := by
    rcases hz with ⟨d, rfl⟩ | rfl | rfl <;> exact fun h => Event.noConfusion h
  rw [step_scale_handle hyp vw vh n e st hre] at hs1
  have hdiff : ¬ (handle hyp vw vh n e st.app).scale = st.app.scale := by
    rw [hs1]
    exact fun h => hne h.symm
  have hst := step_effect_of_ne hyp vw vh n e st hre hdiff
  rw [hst]
  have hfit : ∀ W : ℚ, W ≤ vw → W * (1 : ℚ) ≤ vw := by
    intro W h
    rw [mul_one]
    exact h
  have hfit2 : ∀ H : ℚ, H ≤ vh → H * (1 : ℚ) ≤ vh := by
    intro H h
    rw [mul_one]
    exact h
  rcases hz with ⟨d, rfl⟩ | rfl | rfl
  · refine ⟨?_, ?_, ?_, ?_⟩
    · show (clampPan st.app.imgW st.app.imgH vw vh st.app.tx st.app.ty
        (handle hyp vw vh n (Event.wheel d) st.app).scale).x = _
      rw [hs1]
    · show (clampPan st.app.imgW st.app.imgH vw vh st.app.tx st.app.ty
        (handle hyp vw vh n (Event.wheel d) st.app).scale).y = _
      rw [hs1]
    · intro h
      show (clampPan st.app.imgW st.app.imgH vw vh st.app.tx st.app.ty
        (handle hyp vw vh n (Event.wheel d) st.app).scale).x = 0
      rw [hs1]
      exact clampPan_x_pinned _ _ _ _ _ _ _ (hfit _ h)
    · intro h
      show (clampPan st.app.imgW st.app.imgH vw vh st.app.tx st.app.ty
        (handle hyp vw vh n (Event.wheel d) st.app).scale).y = 0
      rw [hs1]
      exact clampPan_y_pinned _ _ _ _ _ _ _ (hfit2 _ h)
  · refine ⟨?_, ?_, ?_, ?_⟩
    · show (clampPan st.app.imgW st.app.imgH vw vh st.app.tx st.app.ty
        (handle hyp vw vh n (Event.key Key.plus) st.app).scale).x = _
      rw [hs1]
    · show (clampPan st.app.imgW st.app.imgH vw vh st.app.tx st.app.ty
        (handle hyp vw vh n (Event.key Key.plus) st.app).scale).y = _
      rw [hs1]
    · intro h
      show (clampPan st.app.imgW st.app.imgH vw vh st.app.tx st.app.ty
        (handle hyp vw vh n (Event.key Key.plus) st.app).scale).x = 0
      rw [hs1]
      exact clampPan_x_pinned _ _ _ _ _ _ _ (hfit _ h)
    · intro h
      show (clampPan st.app.imgW st.app.imgH vw vh st.app.tx st.app.ty
        (handle hyp vw vh n (Event.key Key.plus) st.app).scale).y = 0
      rw [hs1]
      exact clampPan_y_pinned _ _ _ _ _ _ _ (hfit2 _ h)
  · refine ⟨?_, ?_, ?_, ?_⟩
    · show (clampPan st.app.imgW st.app.imgH vw vh st.app.tx st.app.ty
        (handle hyp vw vh n (Event.key Key.minus) st.app).scale).x = _
      rw [hs1]
    · show (clampPan st.app.imgW st.app.imgH vw vh st.app.tx st.app.ty
        (handle hyp vw vh n (Event.key Key.minus) st.app).scale).y = _
      rw [hs1]
    · intro h
      show (clampPan st.app.imgW st.app.imgH vw vh st.app.tx st.app.ty
        (handle hyp vw vh n (Event.key Key.minus) st.app).scale).x = 0
      rw [hs1]
      exact clampPan_x_pinned _ _ _ _ _ _ _ (hfit _ h)
    · intro h
      show (clampPan st.app.imgW st.app.imgH vw vh st.app.tx st.app.ty
        (handle hyp vw vh n (Event.key Key.minus) st.app).scale).y = 0
      rw [hs1]
      exact clampPan_y_pinned _ _ _ _ _ _ _ (hfit2 _ h)

/-- Witness for C5's amended statement: one zoom-out wheel tick from
`zoomOutDemo` (scale 1.1, tx = 50, 600×400 image) lands on scale 1 and
the fits-the-viewport clause forces tx = 0. -/
theorem zoom_to_one_reclamp_witness :
    (step hypTaxi 800 600 5 (Event.wheel 1) zoomOutDemo).app.tx = 0 :=
  (zoom_to_one_reclamp hypTaxi 800 600 5 (Event.wheel 1) zoomOutDemo
    (Or.inl ⟨1, rfl⟩)
    (by norm_num [step, handle, onWheel, zoomOutDemo, initApp, jsMin,
      jsMax, runScaleEffect])
    (by norm_num [zoomOutDemo, initApp])).2.2.1
    (by norm_num [zoomOutDemo, initApp])

/-- Counterexample to C5 as stated: on a 1600×1200 image (wider than
the 800×600 viewport), zoom in by wheel, drag to tx = 50, release, and
zoom back out by wheel: the final scale is 1 yet tx = 50 ≠ 0, because
`clampPan` at scale 1 still allows a slack of 400 pixels. -/
theorem scale_one_nonzero_pan_counterexample :
    (runTrace [.imageLoad 1600 1200, .wheel (-1), .pointerDown 0 0 0,
      .pointerMove 0 50 0, .pointerUp 0, .wheel 1]).app.scale = 1 ∧
    (runTrace [.imageLoad 1600 1200, .wheel (-1), .pointerDown 0 0 0,
      .pointerMove 0 50 0, .pointerUp 0, .wheel 1]).app.tx = 50 := by
  norm_num [runTrace, step, handle, onImageLoad, onWheel, onPointerDown,
    onPointerMove, onPointerUp, clampPan, jsMax, jsMin, jsAbs, jsOr,
    mapSet, mapDelete, mapHas, getCenterAndDist, initSys, initApp,
    runScaleEffect, onResize]

/-! ### C9: untracked pointers are ignored -/

/-- C9.  In every reachable state, a pointer-move for an untracked
pointer id leaves the whole system state unchanged, and a pointer-up
for an untracked pointer id (in particular one never registered by a
pointer-down) leaves every gesture field — tracked pointers, pinch
anchor data, drag flag, drag anchor — unchanged. -/
theorem untracked_pointer_noop (hyp : ℚ → ℚ → ℚ) (vw vh : ℚ) (n : Nat)
    (st : SysState) (hr : Reachable hyp st) :
    (∀ pid x y, mapHas st.app.pointers pid = false →
      step hyp vw vh n (.pointerMove pid x y) st = st) ∧
    (∀ pid, mapHas st.app.pointers pid = false →
      (step hyp vw vh n (.pointerUp pid) st).app.pointers =
        st.app.pointers ∧
      (step hyp vw vh n (.pointerUp pid) st).app.pinchStartDist =
        st.app.pinchStartDist ∧
      (step hyp vw vh n (.pointerUp pid) st).app.dragging =
        st.app.dragging ∧
      (step hyp vw vh n (.pointerUp pid) st).app.lastPos =
        st.app.lastPos ∧
      (step hyp vw vh n (.pointerUp pid) st).app.pinchStartScale =
        st.app.pinchStartScale ∧
      (step hyp vw vh n (.pointerUp pid) st).app.pinchStartTx =
        st.app.pinchStartTx ∧
      (step hyp vw vh n (.pointerUp pid) st).app.pinchStartTy =
        st.app.pinchStartTy ∧
      (step hyp vw vh n (.pointerUp pid) st).app.pinchStartCenter =
        st.app.pinchStartCenter) := by
  have g := reachable_good hyp st hr
  constructor
  · intro pid x y hh
    have hhandle : handle hyp vw vh n (.pointerMove pid x y) st.app =
        st.app := by
      simp only [handle, onPointerMove, hh]
      simp
    rw [step_handle_of_eq hyp vw vh n _ st (fun h => Event.noConfusion h)
      (by rw [hhandle]), hhandle]
  · intro pid hh
    have hdel : mapDelete st.app.pointers pid = st.app.pointers :=
      mapDelete_not_has _ _ hh
    rw [step_handle_of_eq hyp vw vh n _ st (fun h => Event.noConfusion h)
      (by simp only [handle]; exact onPointerUp_scale pid st.app)]
    simp only [handle]
    by_cases hL2 : st.app.pointers.length < 2
    · have hnone : st.app.pinchStartDist = none := by
        cases hsd : st.app.pinchStartDist with
        | none => rfl
        | some d0 =>
          have := g.dist_two (by rw [hsd]; exact fun h => Option.noConfusion h)
          omega
      by_cases hL0 : st.app.pointers.length = 0
      · have hdrag : st.app.dragging = false :=
          g.drag (List.length_eq_zero.mp hL0)
        have hL2d : (mapDelete st.app.pointers pid).length < 2 := by
          rw [hdel]; exact hL2
        have hL0d : (mapDelete st.app.pointers pid).length = 0 := by
          rw [hdel]; exact hL0
        simp only [onPointerUp, if_pos hL2d, if_pos hL0d]
        simp [hdel, hnone, hdrag]
      · have hL2d : (mapDelete st.app.pointers pid).length < 2 := by
          rw [hdel]; exact hL2
        have hL0d : ¬ (mapDelete st.app.pointers pid).length = 0 := by
          rw [hdel]; exact hL0
        simp only [onPointerUp, if_pos hL2d, if_neg hL0d]
        simp [hdel, hnone]
    · have hL2d : ¬ (mapDelete st.app.pointers pid).length < 2 := by
        rw [hdel]; exact hL2
      have hL0d : ¬ (mapDelete st.app.pointers pid).length = 0 := by
        rw [hdel]; omega
      simp only [onPointerUp, if_neg hL2d, if_neg hL0d]
      simp [hdel]

/-- Witness for C9: from the initial (empty-pointer) state, a move and
an up for the never-registered pointer id 7 change nothing. -/
theorem untracked_pointer_noop_witness :
    step hypTaxi 800 600 5 (Event.pointerMove 7 3 4) initSys = initSys ∧
    (step hypTaxi 800 600 5 (Event.pointerUp 7) initSys).app.pointers =
      initSys.app.pointers :=
  ⟨(untracked_pointer_noop hypTaxi 800 600 5 initSys Reachable.init).1
      7 3 4 (by norm_num [initSys, initApp, mapHas]),
    ((untracked_pointer_noop hypTaxi 800 600 5 initSys Reachable.init).2
      7 (by norm_num [initSys, initApp, mapHas])).1⟩

/-! ### C1: the pan-in-bounds invariant -/

/-- Every pointer-move either leaves scale and translation untouched or
commits a `clampPan` output at the committed scale (the drag branch of
line 241 and the pinch branch of line 231). -/
theorem onPointerMove_cases (hyp : ℚ → ℚ → ℚ) (vw vh : ℚ) (pid : Nat)
    (ex ey : ℚ) (s : AppState) :
    ((onPointerMove hyp vw vh pid ex ey s).scale = s.scale ∧
     (onPointerMove hyp vw vh pid ex ey s).tx = s.tx ∧
     (onPointerMove hyp vw vh pid ex ey s).ty = s.ty) ∨
    PanInBounds vw vh (onPointerMove hyp vw vh pid ex ey s) := by
  simp only [onPointerMove]
  split
  case isFalse => exact Or.inl ⟨rfl, rfl, rfl⟩
  case isTrue =>
    split
    case isTrue =>
      split
      · exact Or.inl ⟨rfl, rfl, rfl⟩
      · split
        · exact Or.inl ⟨rfl, rfl, rfl⟩
        · split
          · exact Or.inl ⟨rfl, rfl, rfl⟩
          · exact Or.inr (panInBounds_of_clamp vw vh _ _ _ rfl rfl)
    case isFalse =>
      split
      · exact Or.inr (panInBounds_of_clamp vw vh _ _ _ rfl rfl)
      · exact Or.inl ⟨rfl, rfl, rfl⟩

/-- C1 (amended).  For every event except a viewport resize, whenever
the step changes the committed scale or translation, the resulting
state is pan-in-bounds with respect to the live viewport and the
current image size: pan and pinch updates commit `clampPan` outputs,
and every scale change triggers the `[scale]` effect's re-clamp.  A
resize event is excluded: its handler clamps values captured at the
last scale change (see the C8 counterexample), which can leave the
committed translation outside the bounds of the current image. -/
theorem panInBounds_after_update (hyp : ℚ → ℚ → ℚ) (vw vh : ℚ) (n : Nat)
    (e : Event) (st : SysState) (hne : e ≠ Event.resize)
    (hch : ¬ ((step hyp vw vh n e st).app.scale = st.app.scale ∧
      (step hyp vw vh n e st).app.tx = st.app.tx ∧
      (step hyp vw vh n e st).app.ty = st.app.ty)) :
    PanInBounds vw vh (step hyp vw vh n e st).app := by
  by_cases hsc : (handle hyp vw vh n e st.app).scale = st.app.scale
  case neg =>
    rw [step_effect_of_ne hyp vw vh n e st hne hsc]
    exact runScaleEffect_inBounds vw vh _
  case pos =>
    rw [step_handle_of_eq hyp vw vh n e st hne hsc] at hch ⊢
    cases e with
    | resize => exact absurd rfl hne
    | pointerDown pid x y =>
      exact absurd ⟨hsc, onPointerDown_tx hyp pid x y st.app,
        onPointerDown_ty hyp pid x y st.app⟩ hch
    | pointerMove pid x y =>
      rcases onPointerMove_cases hyp vw vh pid x y st.app with h | h
      · exact absurd ⟨hsc, h.2.1, h.2.2⟩ hch
      · exact h
    | pointerUp pid =>
      exact absurd ⟨hsc, onPointerUp_tx pid st.app,
        onPointerUp_ty pid st.app⟩ hch
    | wheel d => exact absurd ⟨hsc, rfl, rfl⟩ hch
    | key k =>
      cases k with
      | escape => exact panInBounds_of_zero vw vh _ rfl rfl
      | plus => exact absurd ⟨hsc, rfl, rfl⟩ hch
      | minus => exact absurd ⟨hsc, rfl, rfl⟩ hch
      | zero => exact panInBounds_of_zero vw vh _ rfl rfl
      | arrowRight =>
        exact absurd ⟨hsc, by cases hli : st.app.lightboxIndex <;>
            simp [handle, onKeyDown, hli],
          by cases hli : st.app.lightboxIndex <;>
            simp [handle, onKeyDown, hli]⟩ hch
      | arrowLeft =>
        exact absurd ⟨hsc, by cases hli : st.app.lightboxIndex <;>
            simp [handle, onKeyDown, hli],
          by cases hli : st.app.lightboxIndex <;>
            simp [handle, onKeyDown, hli]⟩ hch
      | other => exact absurd ⟨hsc, rfl, rfl⟩ hch
    | navNext =>
      exact absurd ⟨hsc, by cases hli : st.app.lightboxIndex <;>
          simp [handle, onNavButton, hli],
        by cases hli : st.app.lightboxIndex <;>
          simp [handle, onNavButton, hli]⟩ hch
    | navPrev =>
      exact absurd ⟨hsc, by cases hli : st.app.lightboxIndex <;>
          simp [handle, onNavButton, hli],
        by cases hli : st.app.lightboxIndex <;>
          simp [handle, onNavButton, hli]⟩ hch
    | doubleClick => exact panInBounds_of_zero vw vh _ rfl rfl
    | openEvt idx => exact panInBounds_of_zero vw vh _ rfl rfl
    | imageLoad w h =>
      exact panInBounds_of_zero vw vh _
        (by simp [handle, onImageLoad, clampPan_zero])
        (by simp [handle, onImageLoad, clampPan_zero])

/-- Witness for C1's amended statement: a zoom-in wheel tick from
`zoomOutDemo` changes the scale and the resulting state is
pan-in-bounds. -/
theorem panInBounds_after_update_witness :
    PanInBounds 800 600
      (step hypTaxi 800 600 5 (Event.wheel (-1)) zoomOutDemo).app :=
  panInBounds_after_update hypTaxi 800 600 5 (Event.wheel (-1)) zoomOutDemo
    (fun h => Event.noConfusion h)
    (by
      intro h
      have hs := h.1
      norm_num [step, handle, onWheel, zoomOutDemo, initApp, jsMin, jsMax,
        runScaleEffect, clampPan, jsAbs] at hs)

/-- Counterexample to C1 as stated: zoom a 3200×2400 image to 1.21
with a 300-pixel pan (the resize listener captures tx = 300 and
imgW = 3200 at the zoom), navigate to a 400×300 image whose load
re-centers the view; the state is in bounds until a resize event
re-commits the stale clamp of (300, 0) against the old 3200-wide
image, leaving tx = 300 where the current bound is 0. -/
theorem panInBounds_resize_counterexample :
    PanInBounds 800 600 (runTrace [.imageLoad 3200 2400, .wheel (-1),
      .pointerDown 0 0 0, .pointerMove 0 300 0, .pointerUp 0, .wheel (-1),
      .navNext, .imageLoad 400 300]).app ∧
    ¬ PanInBounds 800 600 (runTrace [.imageLoad 3200 2400, .wheel (-1),
      .pointerDown 0 0 0, .pointerMove 0 300 0, .pointerUp 0, .wheel (-1),
      .navNext, .imageLoad 400 300, .resize]).app := by
  norm_num [runTrace, step, handle, onImageLoad, onWheel, onPointerDown,
    onPointerMove, onPointerUp, onNavButton, clampPan, jsMax, jsMin, jsAbs,
    jsOr, mapSet, mapDelete, mapHas, getCenterAndDist, initSys, initApp,
    runScaleEffect, onResize, PanInBounds]

/-! ### C7: pinch baseline safety -/

/-- C7.  On a pinch move (two tracked pointers, a well-defined center
and distance): if the start distance is unset, the event only records
the current distance (and the moved pointer's position) and commits no
change to scale, tx or ty; if the start distance is resolved, it is
nonzero in every reachable state — it was recorded from a distance that
passed the `dist === 0` guard — so the divisor
`pinchStartDistRef.current || dist` of line 221 is the nonzero start
distance and no division by zero occurs; and if the current distance is
zero the handler commits nothing at all. -/
theorem pinch_baseline_safety (hyp : ℚ → ℚ → ℚ) (vw vh : ℚ) (n : Nat)
    (st : SysState) (pid : Nat) (ex ey : ℚ) (c : Pt) (d : ℚ)
    (hr : Reachable hyp st)
    (hhas : mapHas st.app.pointers pid = true)
    (hcd : getCenterAndDist hyp (mapSet st.app.pointers pid ⟨ex, ey⟩) =
      (some c, d)) :
    (st.app.pinchStartDist = none → ¬ d = 0 →
      (step hyp vw vh n (.pointerMove pid ex ey) st).app =
        { st.app with pointers := mapSet st.app.pointers pid ⟨ex, ey⟩,
                      pinchStartDist := some d }) ∧
    (∀ d0, st.app.pinchStartDist = some d0 → d0 ≠ 0 ∧ jsOr d0 d = d0) ∧
    (d = 0 →
      (step hyp vw vh n (.pointerMove pid ex ey) st).app =
        { st.app with pointers := mapSet st.app.pointers pid ⟨ex, ey⟩ }) := by
  have g := reachable_good hyp st hr
  have h2 : 2 ≤ (mapSet st.app.pointers pid ⟨ex, ey⟩).length :=
    getCenterAndDist_some hyp _ c d hcd
  refine ⟨?_, ?_, ?_⟩
  · intro hsd hd
    have hhandle : handle hyp vw vh n (.pointerMove pid ex ey) st.app =
        { st.app with pointers := mapSet st.app.pointers pid ⟨ex, ey⟩,
                      pinchStartDist := some d } := by
      simp [handle, onPointerMove, hhas, h2, hcd, hsd, hd]
    rw [step_handle_of_eq hyp vw vh n _ st (fun h => Event.noConfusion h)
      (by rw [hhandle]), hhandle]
  · intro d0 hsd
    refine ⟨g.dist_ne d0 hsd, ?_⟩
    rw [jsOr, if_neg (g.dist_ne d0 hsd)]
  · intro hd0
    have hhandle : handle hyp vw vh n (.pointerMove pid ex ey) st.app =
        { st.app with pointers := mapSet st.app.pointers pid ⟨ex, ey⟩ } := by
      simp [handle, onPointerMove, hhas, h2, hcd, hd0]
    rw [step_handle_of_eq hyp vw vh n _ st (fun h => Event.noConfusion h)
      (by rw [hhandle]), hhandle]

/-- Witness for C7: two pointer-downs at (0,0) and (100,0), then the
first move: it resolves the start distance to 100 (the inter-pointer
distance) and changes nothing else. -/
theorem pinch_baseline_safety_witness :
    (step hypTaxi 800 600 5 (Event.pointerMove 0 0 0)
      (runTrace [.pointerDown 0 0 0, .pointerDown 1 100 0])).app =
      { (runTrace [.pointerDown 0 0 0, .pointerDown 1 100 0]).app with
          pointers := mapSet (runTrace [.pointerDown 0 0 0,
            .pointerDown 1 100 0]).app.pointers 0 ⟨0, 0⟩,
          pinchStartDist := some 100 } :=
  (pinch_baseline_safety hypTaxi 800 600 5
      (runTrace [.pointerDown 0 0 0, .pointerDown 1 100 0]) 0 0 0
      ⟨50, 0⟩ 100
      (Reachable.next _ 800 600 5 (.pointerDown 1 100 0)
        (Reachable.next _ 800 600 5 (.pointerDown 0 0 0) Reachable.init))
      (by norm_num [runTrace, step, handle, onPointerDown, mapSet, mapHas,
        getCenterAndDist, initSys, initApp, runScaleEffect])
      (by norm_num [runTrace, step, handle, onPointerDown, mapSet, mapHas,
        getCenterAndDist, initSys, initApp, runScaleEffect, hypTaxi,
        jsAbs])).1
    (by norm_num [runTrace, step, handle, onPointerDown, mapSet, mapHas,
      getCenterAndDist, initSys, initApp, runScaleEffect])
    (by norm_num)

/-! ### C2: the pinch update -/

/-- Two points are equal when their coordinates are. -/
theorem Pt.mk_eq (x y : ℚ) (a : Pt) (hx : x = a.x) (hy : y = a.y) :
    Pt.mk x y = a := by
  cases a
  simp only [Pt.mk.injEq]
  exact ⟨hx, hy⟩

/-- Reduction of the pinch-commit branch of `onPointerMove` (lines
221-235): with a tracked pointer, a well-defined center and nonzero
current and start distances, the handler commits
`nextScale = clamp(startScale*(d/d0), 1, 6)` and the `clampPan` of the
candidate translation `(startTx*k + dx, startTy*k + dy)`,
`k = nextScale/startScale`. -/
theorem pinch_commit_eq (hyp : ℚ → ℚ → ℚ) (vw vh : ℚ) (pid : Nat)
    (ex ey : ℚ) (s : AppState) (c : Pt) (d d0 : ℚ)
    (hhas : mapHas s.pointers pid = true)
    (hcd : getCenterAndDist hyp (mapSet s.pointers pid ⟨ex, ey⟩) =
      (some c, d))
    (hsd : s.pinchStartDist = some d0)
    (hd : ¬ d = 0) (hd0 : ¬ d0 = 0) :
    onPointerMove hyp vw vh pid ex ey s =
      { s with pointers := mapSet s.pointers pid ⟨ex, ey⟩,
               scale := jsMin 6 (jsMax 1 (s.pinchStartScale * (d / d0))),
               tx := (clampPan s.imgW s.imgH vw vh
                 (s.pinchStartTx *
                     (jsMin 6 (jsMax 1 (s.pinchStartScale * (d / d0))) /
                       s.pinchStartScale) +
                   (c.x - s.pinchStartCenter.x))
                 (s.pinchStartTy *
                     (jsMin 6 (jsMax 1 (s.pinchStartScale * (d / d0))) /
                       s.pinchStartScale) +
                   (c.y - s.pinchStartCenter.y))
                 (jsMin 6 (jsMax 1 (s.pinchStartScale * (d / d0))))).x,
               ty := (clampPan s.imgW s.imgH vw vh
                 (s.pinchStartTx *
                     (jsMin 6 (jsMax 1 (s.pinchStartScale * (d / d0))) /
                       s.pinchStartScale) +
                   (c.x - s.pinchStartCenter.x))
                 (s.pinchStartTy *
                     (jsMin 6 (jsMax 1 (s.pinchStartScale * (d / d0))) /
                       s.pinchStartScale) +
                   (c.y - s.pinchStartCenter.y))
                 (jsMin 6 (jsMax 1 (s.pinchStartScale * (d / d0))))).y } := by
  have h2 : 2 ≤ (mapSet s.pointers pid ⟨ex, ey⟩).length :=
    getCenterAndDist_some hyp _ c d hcd
  simp [onPointerMove, hhas, h2, hcd, hsd, hd, jsOr, hd0]

/-- C2 (amended).  For a pinch move with resolved start distance
`d0 > 0` and current distance `d`, the committed state is
`nextScale = clamp(startScale*(d/d0), 1, 6)` and
`(tx, ty) = clampPan(startTx*k + dx, startTy*k + dy, nextScale)` with
`k = nextScale/startScale` and `(dx, dy) = c − startCenter`; when
`d = 2·d0` and `startScale = 1` the pre-clamp scale is exactly 2.  The
anchor property is corrected: the image point under the pinch start
center `c0` (which renders at `c0` in the snapshot state) renders,
when the clamp is not binding, at `c + (k−1)·(c0 − viewportCenter)`
after the update — so with an unmoved midpoint it is preserved iff
`k = 1` or the pinch center is the viewport center, not in general. -/
theorem pinch_move_spec (hyp : ℚ → ℚ → ℚ) (vw vh : ℚ) (n : Nat)
    (st : SysState) (pid : Nat) (ex ey : ℚ) (c c0 : Pt)
    (d d0 s0 t0x t0y ns kk : ℚ) (V p : Pt)
    (hhas : mapHas st.app.pointers pid = true)
    (hcd : getCenterAndDist hyp (mapSet st.app.pointers pid ⟨ex, ey⟩) =
      (some c, d))
    (hsd : st.app.pinchStartDist = some d0)
    (hs0v : s0 = st.app.pinchStartScale)
    (ht0x : t0x = st.app.pinchStartTx)
    (ht0y : t0y = st.app.pinchStartTy)
    (hc0 : c0 = st.app.pinchStartCenter)
    (hd0pos : 0 < d0) (hdpos : 0 < d) (hs0pos : 0 < s0)
    (hns : ns = min 6 (max 1 (s0 * (d / d0))))
    (hk : kk = ns / s0)
    (hV : V = ⟨vw / 2, vh / 2⟩)
    (hp : p = ⟨(c0.x - V.x - t0x) / s0, (c0.y - V.y - t0y) / s0⟩) :
    ((step hyp vw vh n (.pointerMove pid ex ey) st).app.scale = ns ∧
     (step hyp vw vh n (.pointerMove pid ex ey) st).app.tx =
       (clampPan st.app.imgW st.app.imgH vw vh (t0x * kk + (c.x - c0.x))
         (t0y * kk + (c.y - c0.y)) ns).x ∧
     (step hyp vw vh n (.pointerMove pid ex ey) st).app.ty =
       (clampPan st.app.imgW st.app.imgH vw vh (t0x * kk + (c.x - c0.x))
         (t0y * kk + (c.y - c0.y)) ns).y) ∧
    (d = 2 * d0 → s0 = 1 → s0 * (d / d0) = 2) ∧
    renderPos V t0x t0y s0 p = c0 ∧
    (clampPan st.app.imgW st.app.imgH vw vh (t0x * kk + (c.x - c0.x))
        (t0y * kk + (c.y - c0.y)) ns =
      ⟨t0x * kk + (c.x - c0.x), t0y * kk + (c.y - c0.y)⟩ →
      renderPos V (step hyp vw vh n (.pointerMove pid ex ey) st).app.tx
          (step hyp vw vh n (.pointerMove pid ex ey) st).app.ty
          (step hyp vw vh n (.pointerMove pid ex ey) st).app.scale p =
        ⟨c.x + (kk - 1) * (c0.x - V.x), c.y + (kk - 1) * (c0.y - V.y)⟩ ∧
      (c = c0 →
        (renderPos V (step hyp vw vh n (.pointerMove pid ex ey) st).app.tx
            (step hyp vw vh n (.pointerMove pid ex ey) st).app.ty
            (step hyp vw vh n (.pointerMove pid ex ey) st).app.scale p =
            c0 ↔
          kk = 1 ∨ c0 = V))) := by
  subst hp
  subst hk
  subst hns
  subst hV
  subst hc0
  subst ht0x
  subst ht0y
  subst hs0v
  have hs0ne : st.app.pinchStartScale ≠ 0 := hs0pos.ne'
  have hd0ne : d0 ≠ 0 := hd0pos.ne'
  have hne' : (Event.pointerMove pid ex ey) ≠ Event.resize :=
    fun h => Event.noConfusion h
  have hhandle : handle hyp vw vh n (.pointerMove pid ex ey) st.app =
      onPointerMove hyp vw vh pid ex ey st.app := rfl
  have hrec := pinch_commit_eq hyp vw vh pid ex ey st.app c d d0 hhas hcd
    hsd hdpos.ne' hd0ne
  rw [hrec] at hhandle
  -- committed projections
  have hsc : (step hyp vw vh n (.pointerMove pid ex ey) st).app.scale =
      jsMin 6 (jsMax 1 (st.app.pinchStartScale * (d / d0))) := by
    by_cases hb : (handle hyp vw vh n (.pointerMove pid ex ey)
        st.app).scale = st.app.scale
    · rw [step_handle_of_eq hyp vw vh n _ st hne' hb, hhandle]
    · rw [step_effect_of_ne hyp vw vh n _ st hne' hb]
      simp only [runScaleEffect]
      rw [hhandle]
  have htx : (step hyp vw vh n (.pointerMove pid ex ey) st).app.tx =
      (clampPan st.app.imgW st.app.imgH vw vh
        (st.app.pinchStartTx *
            (jsMin 6 (jsMax 1 (st.app.pinchStartScale * (d / d0))) /
              st.app.pinchStartScale) +
          (c.x - st.app.pinchStartCenter.x))
        (st.app.pinchStartTy *
            (jsMin 6 (jsMax 1 (st.app.pinchStartScale * (d / d0))) /
              st.app.pinchStartScale) +
          (c.y - st.app.pinchStartCenter.y))
        (jsMin 6 (jsMax 1 (st.app.pinchStartScale * (d / d0))))).x := by
    by_cases hb : (handle hyp vw vh n (.pointerMove pid ex ey)
        st.app).scale = st.app.scale
    · rw [step_handle_of_eq hyp vw vh n _ st hne' hb, hhandle]
    · rw [step_effect_of_ne hyp vw vh n _ st hne' hb]
      simp only [runScaleEffect]
      rw [hhandle]
      exact congrArg Pt.x (clampPan_idem _ _ _ _ _ _ _)
  have hty : (step hyp vw vh n (.pointerMove pid ex ey) st).app.ty =
      (clampPan st.app.imgW st.app.imgH vw vh
        (st.app.pinchStartTx *
            (jsMin 6 (jsMax 1 (st.app.pinchStartScale * (d / d0))) /
              st.app.pinchStartScale) +
          (c.x - st.app.pinchStartCenter.x))
        (st.app.pinchStartTy *
            (jsMin 6 (jsMax 1 (st.app.pinchStartScale * (d / d0))) /
              st.app.pinchStartScale) +
          (c.y - st.app.pinchStartCenter.y))
        (jsMin 6 (jsMax 1 (st.app.pinchStartScale * (d / d0))))).y := by
    by_cases hb : (handle hyp vw vh n (.pointerMove pid ex ey)
        st.app).scale = st.app.scale
    · rw [step_handle_of_eq hyp vw vh n _ st hne' hb, hhandle]
    · rw [step_effect_of_ne hyp vw vh n _ st hne' hb]
      simp only [runScaleEffect]
      rw [hhandle]
      exact congrArg Pt.y (clampPan_idem _ _ _ _ _ _ _)
  simp only [jsMin_eq, jsMax_eq] at hsc htx hty
  refine ⟨⟨hsc, htx, hty⟩, ?_, ?_, ?_⟩
  · intro hdd hss
    rw [hss, hdd, one_mul, mul_div_assoc, div_self hd0ne, mul_one]
  · refine Pt.mk_eq _ _ _ ?_ ?_ <;>
      · simp only [renderPos]
        field_simp
        ring
  · intro hnb
    have htx2 : (step hyp vw vh n (.pointerMove pid ex ey) st).app.tx =
        st.app.pinchStartTx *
            (min 6 (max 1 (st.app.pinchStartScale * (d / d0))) /
              st.app.pinchStartScale) + (c.x - st.app.pinchStartCenter.x) := by
      rw [htx, hnb]
    have hty2 : (step hyp vw vh n (.pointerMove pid ex ey) st).app.ty =
        st.app.pinchStartTy *
            (min 6 (max 1 (st.app.pinchStartScale * (d / d0))) /
              st.app.pinchStartScale) + (c.y - st.app.pinchStartCenter.y) := by
      rw [hty, hnb]
    have hpos : renderPos ⟨vw / 2, vh / 2⟩
        (step hyp vw vh n (.pointerMove pid ex ey) st).app.tx
        (step hyp vw vh n (.pointerMove pid ex ey) st).app.ty
        (step hyp vw vh n (.pointerMove pid ex ey) st).app.scale
        ⟨(st.app.pinchStartCenter.x - (vw / 2) - st.app.pinchStartTx) /
            st.app.pinchStartScale,
          (st.app.pinchStartCenter.y - (vh / 2) - st.app.pinchStartTy) /
            st.app.pinchStartScale⟩ =
        ⟨c.x + (min 6 (max 1 (st.app.pinchStartScale * (d / d0))) /
              st.app.pinchStartScale - 1) *
            (st.app.pinchStartCenter.x - (vw / 2)),
          c.y + (min 6 (max 1 (st.app.pinchStartScale * (d / d0))) /
              st.app.pinchStartScale - 1) *
            (st.app.pinchStartCenter.y - (vh / 2))⟩ := by
      rw [htx2, hty2, hsc]
      simp only [renderPos, Pt.mk.injEq]
      constructor <;> (field_simp; ring)
    refine ⟨hpos, ?_⟩
    intro hcc0
    subst hcc0
    rw [hpos]
    constructor
    · intro hq
      rw [Pt.mk.injEq] at hq
      have hqx : (min 6 (max 1 (st.app.pinchStartScale * (d / d0))) /
          st.app.pinchStartScale - 1) *
          (st.app.pinchStartCenter.x - vw / 2) = 0 := by linarith [hq.1]
      have hqy : (min 6 (max 1 (st.app.pinchStartScale * (d / d0))) /
          st.app.pinchStartScale - 1) *
          (st.app.pinchStartCenter.y - vh / 2) = 0 := by linarith [hq.2]
      rcases mul_eq_zero.mp hqx with hk1 | hx0
      · left
        linarith
      · rcases mul_eq_zero.mp hqy with hk1 | hy0
        · left
          linarith
        · right
          exact (Pt.mk_eq _ _ _ (by linarith) (by linarith)).symm
    · intro hq
      rcases hq with hk1 | hce
      · exact Pt.mk_eq _ _ _ (by rw [hk1]; ring) (by rw [hk1]; ring)
      · rw [hce]
        exact Pt.mk_eq _ _ _ (by simp) (by simp)

/-- Witness for C2's amended statement: from `pinchDemo` (start scale
1, start distance 100) a move that makes the pointer distance 200
commits scale 2. -/
theorem pinch_move_spec_witness :
    (step hypTaxi 800 600 5 (Event.pointerMove 0 (-100) 0)
      pinchDemo).app.scale = 2 :=
  ((pinch_move_spec hypTaxi 800 600 5 pinchDemo 0 (-100) 0 ⟨0, 0⟩ ⟨0, 0⟩
      200 100 1 0 0 (min 6 (max 1 ((1 : ℚ) * (200 / 100))))
      (min 6 (max 1 ((1 : ℚ) * (200 / 100))) / 1)
      ⟨400, 300⟩ ⟨(0 - 400 - 0) / 1, (0 - 300 - 0) / 1⟩
      (by norm_num [pinchDemo, mapHas])
      (by norm_num [pinchDemo, mapSet, mapHas, getCenterAndDist, hypTaxi,
        jsAbs])
      (by norm_num [pinchDemo])
      (by norm_num [pinchDemo])
      (by norm_num [pinchDemo])
      (by norm_num [pinchDemo])
      (by norm_num [pinchDemo])
      (by norm_num) (by norm_num) (by norm_num)
      rfl rfl
      (by norm_num)
      (by norm_num [pinchDemo])).1.1.trans
    (by norm_num [min_def, max_def]))

/-- Counterexample to C2 as stated: in `pinchDemo` the pinch centroid
sits at screen (0, 0) while the viewport center is (400, 300); the
image point under the centroid is p = (−400, −300) in image
coordinates and renders at (0, 0) before the update.  The move that
doubles the distance commits scale 2 with translation (0, 0) — the
clamp is not binding — and p then renders at (−400, −300), not at
(0, 0): the centroid-anchoring sentence of the claim is false. -/
theorem pinch_anchor_counterexample :
    (step hypTaxi 800 600 5 (Event.pointerMove 0 (-100) 0)
      pinchDemo).app.scale = 2 ∧
    (step hypTaxi 800 600 5 (Event.pointerMove 0 (-100) 0)
      pinchDemo).app.tx = 0 ∧
    (step hypTaxi 800 600 5 (Event.pointerMove 0 (-100) 0)
      pinchDemo).app.ty = 0 ∧
    clampPan 3200 2400 800 600 0 0 2 = ⟨0, 0⟩ ∧
    renderPos ⟨400, 300⟩ pinchDemo.app.pinchStartTx
      pinchDemo.app.pinchStartTy pinchDemo.app.pinchStartScale
      ⟨-400, -300⟩ = ⟨0, 0⟩ ∧
    renderPos ⟨400, 300⟩
      (step hypTaxi 800 600 5 (Event.pointerMove 0 (-100) 0)
        pinchDemo).app.tx
      (step hypTaxi 800 600 5 (Event.pointerMove 0 (-100) 0)
        pinchDemo).app.ty
      (step hypTaxi 800 600 5 (Event.pointerMove 0 (-100) 0)
        pinchDemo).app.scale ⟨-400, -300⟩ = ⟨-400, -300⟩ ∧
    (⟨-400, -300⟩ : Pt) ≠ ⟨0, 0⟩ := by
  norm_num [step, handle, onPointerMove, clampPan, jsMax, jsMin, jsAbs,
    jsOr, mapSet, mapHas, getCenterAndDist, pinchDemo, renderPos,
    runScaleEffect, hypTaxi, Pt.mk.injEq]
